import Mathlib

/-!
Shallow embedding of the ProductivityHub integration-connector layer
(`server/lib/api-connectors.ts`) and of the in-memory widget store
(`server/storage.ts`, schema in `shared/schema.ts`).

Conventions of the embedding:
* JavaScript runtime values flowing through the untyped (`any`) parts of the
  code are modelled by the inductive `JS` below.  Property access on `null`
  or `undefined` throws in JavaScript; that is modelled by `getF` returning
  `Except`.  Public connector methods that wrap their body in
  `try { ... } catch { return sentinel }` are modelled by matching on the
  `Except` result of the body.
* Host builtins with engine/locale dependent behaviour (`new Date(string)`
  parsing, `Date.prototype.toLocaleString`) are passed in as explicit
  function parameters of the model; everything else is translated directly
  from the TypeScript source.
* Machine integers do not occur: all numbers involved are small integers
  (dates in milliseconds, hours, minutes), modelled by `Int`/`Nat`.
-/

/-- Model of a JavaScript runtime value (the `any`-typed JSON data the
connectors receive from the remote APIs). -/
inductive JS where
  | undefined
  | null
  | bool (b : Bool)
  | num (n : Int)
  | str (s : String)
  | arr (xs : List JS)
  | obj (fields : List (String × JS))

/-- JavaScript truthiness (`if (v)`).  `NaN` is not modelled; the numeric
values that occur in the connectors are integers. -/
def truthy : JS → Bool
  | .undefined => false
  | .null => false
  | .bool b => b
  | .num n => n != 0
  | .str s => s != ""
  | .arr _ => true
  | .obj _ => true

/-- Total field access used inside predicates and in places where the
receiver is already known to be non-nullish: a missing field on an object is
`undefined`, and named fields of primitives are `undefined`. -/
def fget : JS → String → JS
  | .obj fs, k => (fs.lookup k).getD .undefined
  | _, _ => .undefined

/-- JavaScript property access `v[k]`: throws a `TypeError` when the
receiver is `null` or `undefined`, otherwise behaves like `fget`. -/
def getF : JS → String → Except String JS
  | .undefined, k => .error ("Cannot read properties of undefined (reading " ++ k ++ ")")
  | .null, k => .error ("Cannot read properties of null (reading " ++ k ++ ")")
  | v, k => .ok (fget v k)

/-- `Array.isArray`. -/
def isArrB : JS → Bool
  | .arr _ => true
  | _ => false

/-- Elements of an array value (empty for non-arrays; used only after an
`Array.isArray` check, mirroring the source). -/
def elemsOf : JS → List JS
  | .arr xs => xs
  | _ => []

/-- `Object.values(v)`: field values of an object in insertion order;
characters for a string; elements for an array; empty otherwise. -/
def objValues : JS → List JS
  | .obj fs => fs.map Prod.snd
  | .arr xs => xs
  | .str s => s.toList.map (fun c => JS.str (String.singleton c))
  | _ => []

/-- Strict equality `v === s` against a string literal. -/
def isStrEqB (v : JS) (s : String) : Bool :=
  match v with
  | .str t => t == s
  | _ => false

/-- JavaScript `||`: the first operand if truthy, otherwise the second. -/
def jsOr (a b : JS) : JS := if truthy a then a else b

mutual

/-- JavaScript string coercion `String(v)`.  Arrays stringify by joining the
stringifications of their elements with commas (`null`/`undefined` elements
become the empty string, per `Array.prototype.join`); plain objects become
`"[object Object]"`. -/
def jsToString : JS → String
  | .undefined => "undefined"
  | .null => "null"
  | .bool b => if b then "true" else "false"
  | .num n => toString n
  | .str s => s
  | .arr xs => String.intercalate "," (jsToStringArrParts xs)
  | .obj _ => "[object Object]"

def jsToStringArrParts : List JS → List String
  | [] => []
  | .null :: xs => "" :: jsToStringArrParts xs
  | .undefined :: xs => "" :: jsToStringArrParts xs
  | x :: xs => jsToString x :: jsToStringArrParts xs

end

/- ----------------------------------------------------------------
   TrelloConnector (api-connectors.ts lines 50-220)
   ---------------------------------------------------------------- -/

/-- `TrelloCard` (api-connectors.ts lines 4-13); a label is an
(id, name, color) triple. -/
structure TrelloCard where
  id : String
  name : String
  desc : String
  due : Option String
  dueComplete : Bool
  idBoard : String
  idList : String
  labels : List (String × String × String)
deriving DecidableEq, Repr

/-- `TrelloBoard` (lines 15-19). -/
structure TrelloBoard where
  id : String
  name : String
  shortUrl : String
deriving DecidableEq, Repr

/-- `TrelloList` (lines 21-25). -/
structure TrelloList where
  id : String
  name : String
  idBoard : String
deriving DecidableEq, Repr

/-- An HTTP response as seen by the low-level fetch helpers: `ok` is the
2xx flag, `body` the parsed JSON. -/
structure HttpResp where
  ok : Bool
  status : Nat
  statusText : String
  body : JS

/-- `fetchFromTrello` (lines 72-100): on a non-ok response it throws
`Trello API error: <status> <statusText>`; the surrounding catch merely
logs and rethrows, so the model is the bare check. -/
def fetchFromTrello (resp : HttpResp) : Except String JS :=
  if resp.ok then .ok resp.body
  else .error ("Trello API error: " ++ toString resp.status ++ " " ++ resp.statusText)

/-- Coercion of a successful JSON body into the list the TypeScript return
type promises (the API contract makes the body an array on success). -/
def asArray (v : JS) : List JS := elemsOf v

/-- `getBoards` (lines 102-110): returns the response data, or `[]` on any
error. -/
def getBoards (resp : HttpResp) : List JS :=
  match fetchFromTrello resp with
  | .ok d => asArray d
  | .error _ => []

/-- `getLists` (lines 112-120): same swallow-and-log policy as `getBoards`. -/
def getLists (resp : HttpResp) : List JS :=
  match fetchFromTrello resp with
  | .ok d => asArray d
  | .error _ => []

/-- `getCardsOnList` (lines 122-130): same swallow-and-log policy. -/
def getCardsOnList (resp : HttpResp) : List JS :=
  match fetchFromTrello resp with
  | .ok d => asArray d
  | .error _ => []

/-- The per-board `boardLists` mapping built in `getCardsDueWithin`
(lines 143-152): board id ↦ (list id ↦ list name).  Board ids are assumed
distinct (a Trello invariant); with duplicates the JavaScript object would
keep the last written entry where this association list keeps the first. -/
def buildBoardLists (boards : List TrelloBoard) (listsOf : String → List TrelloList) :
    List (String × List (String × String)) :=
  boards.map (fun b => (b.id, (listsOf b.id).map (fun l => (l.id, l.name))))

/-- Status lookup `boardLists[card.idBoard]?.[card.idList] || 'Unknown'`
(line 165): a missing board, a missing list, or an empty-string list name
(falsy) all yield `"Unknown"`. -/
def lookupStatus (bl : List (String × List (String × String)))
    (idBoard idList : String) : String :=
  match bl.lookup idBoard with
  | none => "Unknown"
  | some m =>
    match m.lookup idList with
    | none => "Unknown"
    | some nm => if nm = "" then "Unknown" else nm

/-- A card annotated with `status` and `members` (lines 167-171). -/
structure EnhancedCard where
  card : TrelloCard
  status : String
  members : List String
deriving DecidableEq, Repr

/-- The enhancement step of `getCardsDueWithin` (lines 163-172). -/
def enhanceCard (bl : List (String × List (String × String))) (c : TrelloCard) :
    EnhancedCard :=
  { card := c, status := lookupStatus bl c.idBoard c.idList, members := [] }

/-- Milliseconds per day; `futureDate.setDate(now.getDate() + days)`
(lines 179-180) shifts the same clock time `days` days forward, which in a
timezone-free model is `days * msPerDay` milliseconds. -/
def msPerDay : Int := 86400000

/-- The due-date filter of `getCardsDueWithin` (lines 182-187), with the
host date parser (`new Date(string)`, `none` for an Invalid Date) passed in
as `parse`.  `!card.due` rejects both an absent and an empty-string due;
an Invalid Date compares false on both bounds and is rejected. -/
def cardDueFilter (parse : String → Option Int) (now days : Int)
    (due : Option String) : Bool :=
  match due with
  | none => false
  | some s =>
    if s = "" then false
    else
      match parse s with
      | none => false
      | some t => decide (now ≤ t) && decide (t ≤ now + days * msPerDay)

/-- `getCardsDueWithin` (lines 132-192), happy path: `listsOf` and
`cardsOf` give the lists and cards fetched for a board id, `now` the
current time in milliseconds.  Cards are gathered board by board in
upstream order, enhanced, then filtered by the due window. -/
def getCardsDueWithin (boards : List TrelloBoard)
    (listsOf : String → List TrelloList) (cardsOf : String → List TrelloCard)
    (now days : Int) (parse : String → Option Int) : List EnhancedCard :=
  if boards.isEmpty then []
  else
    let bl := buildBoardLists boards listsOf
    let allCards := boards.flatMap (fun b => (cardsOf b.id).map (enhanceCard bl))
    allCards.filter (fun ec => cardDueFilter parse now days ec.card.due)

/- ----------------------------------------------------------------
   NotionConnector (api-connectors.ts lines 222-522)
   ---------------------------------------------------------------- -/

/-- A normalized notes page as assembled by `getRecentPages` /
`searchPages` / `createPage`: the non-title fields are copied through
untyped, the title is the extracted string. -/
structure NotionPageN where
  id : JS
  title : String
  icon : JS
  lastEditedTime : JS
  url : JS

/-- `fetchFromNotion` (lines 234-272): throws
`Notion API error: <status> <statusText>` on a non-ok response. -/
def fetchFromNotion (resp : HttpResp) : Except String JS :=
  if resp.ok then .ok resp.body
  else .error ("Notion API error: " ++ toString resp.status ++ " " ++ resp.statusText)

/-- `titleProperty.title.map((t) => t.plain_text || '').join('')`
(lines 328, 330, 340, 343 and their `searchPages` twins): accessing
`plain_text` on a `null` entry throws; a falsy `plain_text` contributes the
empty string, a truthy one its string coercion. -/
def joinPlainTexts : List JS → Except String String
  | [] => .ok ""
  | t :: ts => do
    let p ← getF t "plain_text"
    let rest ← joinPlainTexts ts
    .ok ((if truthy p then jsToString p else "") ++ rest)

/-- `Object.values(page.properties).find((p) => p.type === 'title')`
(line 324, `getRecentPages` only): stops at the first property whose
`type` is the string `'title'`; accessing `type` on a `null` property
throws. -/
def findByTypeTitle : List JS → Except String (Option JS)
  | [] => .ok none
  | p :: ps => do
    let ty ← getF p "type"
    if isStrEqB ty "title" then .ok (some p) else findByTypeTitle ps

/-- The body of `if (titleProperty) { ... }` (lines 326-331 and 406-411):
extract from `titleProperty.title` if it is a (possibly empty) array, else
from `titleProperty.rich_text`, else leave the title at `'Untitled'`.
The receiver is truthy, so the field reads themselves cannot throw. -/
def titleFromProperty (tp : JS) : Except String String :=
  let t := fget tp "title"
  if truthy t && isArrB t then joinPlainTexts (elemsOf t)
  else
    let rt := fget tp "rich_text"
    if truthy rt && isArrB rt then joinPlainTexts (elemsOf rt)
    else .ok "Untitled"

/-- The property scan loop (lines 336-346 and 414-424): first property with
a non-empty `title` array, else with a non-empty `rich_text` array;
`prop.title` on a `null` property throws. -/
def scanPropsForTitle : List JS → Except String (Option String)
  | [] => .ok none
  | p :: ps => do
    let t ← getF p "title"
    if truthy t && isArrB t && decide (0 < (elemsOf t).length) then do
      let s ← joinPlainTexts (elemsOf t)
      .ok (some s)
    else
      let rt ← getF p "rich_text"
      if truthy rt && isArrB rt && decide (0 < (elemsOf rt).length) then do
        let s ← joinPlainTexts (elemsOf rt)
        .ok (some s)
      else scanPropsForTitle ps

/-- `if (page.child_page && page.child_page.title) title = page.child_page.title`
(lines 351-353 and 429-431); the raw title value is coerced to the string
it renders as.  `page` is non-nullish here because `page.properties` was
already read. -/
def applyChildPage (page : JS) (t : String) : String :=
  let cp := fget page "child_page"
  if truthy cp then
    let cpt := fget cp "title"
    if truthy cpt then jsToString cpt else t
  else t

/-- The `try`-block of title extraction in `getRecentPages`
(lines 315-353): the `||` chain over `title`/`Title`/`Name`/`name`, then
the find-by-type tier, then the property scan, then the child-page
override.  A truthy `page.properties` is non-nullish, so the four direct
reads cannot throw. -/
def extractTitleRecentE (page : JS) : Except String String := do
  let props ← getF page "properties"
  let t1 ←
    if truthy props then do
      let direct := jsOr (fget props "title") (jsOr (fget props "Title")
        (jsOr (fget props "Name") (fget props "name")))
      let titleProperty ←
        if truthy direct then .ok direct
        else do
          let f ← findByTypeTitle (objValues props)
          .ok (f.getD JS.undefined)
      if truthy titleProperty then titleFromProperty titleProperty
      else do
        let r ← scanPropsForTitle (objValues props)
        .ok (r.getD "Untitled")
    else .ok "Untitled"
  .ok (applyChildPage page t1)

/-- The `try`-block of title extraction in `searchPages` (lines 398-431):
identical to `extractTitleRecentE` except that the `||` chain has no
find-by-type tier (line 400-404 vs 319-324). -/
def extractTitleSearchE (page : JS) : Except String String := do
  let props ← getF page "properties"
  let t1 ←
    if truthy props then do
      let titleProperty := jsOr (fget props "title") (jsOr (fget props "Title")
        (jsOr (fget props "Name") (fget props "name")))
      if truthy titleProperty then titleFromProperty titleProperty
      else do
        let r ← scanPropsForTitle (objValues props)
        .ok (r.getD "Untitled")
    else .ok "Untitled"
  .ok (applyChildPage page t1)

/-- `page.id.substring(0, 8)` prefix used by the catch fallback. -/
def takeFirst8 (s : String) : String := String.mk (s.toList.take 8)

/-- The `catch` fallback ``title = `Page ${page.id.substring(0, 8)}` ``
(lines 356-357 and 434): `substring` itself throws when `page.id` is not a
string, which would escape the catch. -/
def pageFallbackTitle (page : JS) : Except String String := do
  let pid ← getF page "id"
  match pid with
  | .str s => .ok ("Page " ++ takeFirst8 s)
  | .undefined => .error "substring of undefined"
  | .null => .error "substring of null"
  | _ => .error "substring is not a function"

/-- Title extraction of `getRecentPages` including its local catch. -/
def extractTitleRecent (page : JS) : Except String String :=
  match extractTitleRecentE page with
  | .ok t => .ok t
  | .error _ => pageFallbackTitle page

/-- Title extraction of `searchPages` including its local catch. -/
def extractTitleSearch (page : JS) : Except String String :=
  match extractTitleSearchE page with
  | .ok t => .ok t
  | .error _ => pageFallbackTitle page

/-- The per-page record assembly (lines 360-366 and 437-443). -/
def mkNotionPage (page : JS) (title : String) : NotionPageN :=
  { id := fget page "id", title := title, icon := fget page "icon",
    lastEditedTime := fget page "last_edited_time", url := fget page "url" }

/-- The `data.results.map(...)` transform of `getRecentPages`
(lines 312-367): per-page title extraction with its local catch; an error
escaping the catch fails the whole map (and would be turned into `[]` by
the outer catch of `getRecentPages`). -/
def getRecentPagesTransform : List JS → Except String (List NotionPageN)
  | [] => .ok []
  | page :: rest => do
    let t ← extractTitleRecent page
    let tail ← getRecentPagesTransform rest
    .ok (mkNotionPage page t :: tail)

/-- The `data.results.map(...)` transform of `searchPages`
(lines 396-444). -/
def searchPagesTransform : List JS → Except String (List NotionPageN)
  | [] => .ok []
  | page :: rest => do
    let t ← extractTitleSearch page
    let tail ← searchPagesTransform rest
    .ok (mkNotionPage page t :: tail)

/-- JavaScript falsiness of the optional `parentId` string parameter
(`!parentId`): absent, or present but empty. -/
def jsFalsyOptStr : Option String → Bool
  | none => true
  | some s => s = ""

/-- The `try`-block of `createPage` (lines 452-480): the required-parameter
throw, then the POST (modelled by its result `fetchResult`), then the
record assembly reading `data.id` etc. (which throws if `data` is
nullish). -/
def createPageInner (title : String) (parentId : Option String)
    (fetchResult : Except String JS) : Except String NotionPageN := do
  if jsFalsyOptStr parentId then
    .error "Parent ID is required to create a Notion page"
  else do
    let data ← fetchResult
    let i ← getF data "id"
    let le ← getF data "last_edited_time"
    let u ← getF data "url"
    .ok { id := i, title := title, icon := JS.undefined, lastEditedTime := le, url := u }

/-- `createPage` (lines 451-485): the catch turns every error — including
the required-parameter error thrown inside the `try` — into `null`. -/
def createPage (title : String) (parentId : Option String)
    (fetchResult : Except String JS) : Option NotionPageN :=
  match createPageInner title parentId fetchResult with
  | .ok p => some p
  | .error _ => none

/-- A processed content block (lines 503-510). -/
structure BlockN where
  id : JS
  type : JS
  content : JS
  text : String
  has_children : JS

/-- Property key for the computed access `block[blockType]` (a non-string
key is coerced to its string form). -/
def jsKeyOf (v : JS) : String := jsToString v

/-- `content?.rich_text?.map((t) => t.plain_text || '').join('') || ''`
(line 508): optional chaining makes a nullish `content` or `rich_text`
yield `''`; calling `.map` on a truthy non-array throws. -/
def blockText (content : JS) : Except String String :=
  if truthy content then
    let rt := fget content "rich_text"
    if truthy rt then
      match rt with
      | .arr xs => do
        let s ← joinPlainTexts xs
        .ok s
      | _ => .error "map is not a function"
    else .ok ""
  else .ok ""

/-- One step of the block-processing map (lines 498-511). -/
def processBlock (block : JS) : Except String BlockN := do
  let ty ← getF block "type"
  let content ← getF block (jsKeyOf ty)
  let text ← blockText content
  .ok { id := fget block "id", type := ty, content := content, text := text,
        has_children := fget block "has_children" }

def processBlocks : List JS → Except String (List BlockN)
  | [] => .ok []
  | b :: bs => do
    let x ← processBlock b
    let xs ← processBlocks bs
    .ok (x :: xs)

/-- `getPageContent` (lines 487-521): two sequential fetches, block
processing of `blocksData.results || []`, and a catch that rethrows — so
every failure propagates to the caller. -/
def getPageContent (pageResp blocksResp : HttpResp) :
    Except String (JS × List BlockN) := do
  let pageData ← fetchFromNotion pageResp
  let blocksData ← fetchFromNotion blocksResp
  let rs ← getF blocksData "results"
  let rsOr := if truthy rs then rs else JS.arr []
  match rsOr with
  | .arr xs => do
    let blocks ← processBlocks xs
    .ok (pageData, blocks)
  | _ => .error "map is not a function"

/- ----------------------------------------------------------------
   GmailConnector (api-connectors.ts lines 524-724)
   ---------------------------------------------------------------- -/

/-- ASCII lowering, the model of `String.prototype.toLowerCase` on the
ASCII data the connectors handle. -/
def lowerStr (s : String) : String := String.mk (s.toList.map Char.toLower)

/-- `a.includes(b)` on lists of characters. -/
def listContainsSub (hay needle : List Char) : Bool :=
  match hay with
  | [] => needle.isEmpty
  | _ :: t => needle.isPrefixOf hay || listContainsSub t needle

/-- `String.prototype.includes`. -/
def strContains (hay needle : String) : Bool :=
  listContainsSub hay.toList needle.toList

/-- `v.toLowerCase()`: defined for strings, a `TypeError` otherwise. -/
def jsToLowerCase (v : JS) : Except String String :=
  match v with
  | .str s => .ok (lowerStr s)
  | _ => .error "toLowerCase is not a function"

/-- The whitespace class `\s` (ASCII part; the Unicode spaces do not occur
in the snippets under consideration). -/
def isSpaceJS (c : Char) : Bool :=
  c = ' ' || c = '\t' || c = '\n' || c = '\r' || c = '\x0b' || c = '\x0c'

/-- The word class `\w` = `[A-Za-z0-9_]`. -/
def isWordChar (c : Char) : Bool :=
  ('a' ≤ c && c ≤ 'z') || ('A' ≤ c && c ≤ 'Z') || c.isDigit || c = '_'

/-- `parseInt(s)` in base 10: skip leading whitespace, optional sign,
then a maximal run of digits; `none` models `NaN` (no digits). -/
def digitsVal (cs : List Char) : Option Nat :=
  let ds := cs.takeWhile Char.isDigit
  if ds.isEmpty then none
  else some (ds.foldl (fun a c => a * 10 + (c.toNat - 48)) 0)

def parseIntJS (s : String) : Option Int :=
  match s.toList.dropWhile isSpaceJS with
  | '-' :: rest => (digitsVal rest).map (fun n => -(n : Int))
  | '+' :: rest => (digitsVal rest).map (fun n => (n : Int))
  | cs => (digitsVal cs).map (fun n => (n : Int))

/-- First `some` produced by `f` over a list (used to realize regex
backtracking over greedy-ordered candidate splits). -/
def firstSome (xs : List α) (f : α → Option β) : Option β :=
  match xs with
  | [] => none
  | x :: t =>
    match f x with
    | some b => some b
    | none => firstSome t f

/-- Candidate splits for `\d{1,2}`, greedy order (two digits first). -/
def matchD12 (cs : List Char) : List (List Char × List Char) :=
  match cs with
  | c1 :: c2 :: rest =>
    if c1.isDigit && c2.isDigit then [([c1, c2], rest), ([c1], c2 :: rest)]
    else if c1.isDigit then [([c1], c2 :: rest)]
    else []
  | [c1] => if c1.isDigit then [([c1], [])] else []
  | [] => []

/-- Candidate splits for `\d{2,4}`, greedy order (four digits first). -/
def matchD24 (cs : List Char) : List (List Char × List Char) :=
  match cs with
  | c1 :: c2 :: rest =>
    if c1.isDigit && c2.isDigit then
      (match rest with
       | c3 :: rest3 =>
         if c3.isDigit then
           (match rest3 with
            | c4 :: rest4 =>
              if c4.isDigit then
                [([c1, c2, c3, c4], rest4), ([c1, c2, c3], c4 :: rest4),
                 ([c1, c2], c3 :: rest3)]
              else [([c1, c2, c3], rest3), ([c1, c2], c3 :: rest3)]
            | [] => [([c1, c2, c3], []), ([c1, c2], [c3])])
         else [([c1, c2], rest)]
       | [] => [([c1, c2], [])])
    else []
  | _ => []

/-- A separator from the class dash-or-slash. -/
def matchSep (cs : List Char) : Option (Char × List Char) :=
  match cs with
  | c :: rest => if c = '-' || c = '/' then some (c, rest) else none
  | [] => none

/-- First alternative of the date pattern (line 680): one or two digits, a
dash-or-slash, one or two digits, a dash-or-slash, then two to four digits,
anchored at the given position. -/
def dateAlt1At (cs : List Char) : Option (List Char) :=
  firstSome (matchD12 cs) (fun (m1, r1) => do
    let (s1, r2) ← matchSep r1
    firstSome (matchD12 r2) (fun (m2, r3) => do
      let (s2, r4) ← matchSep r3
      firstSome (matchD24 r4) (fun (m3, _) =>
        some (m1 ++ [s1] ++ m2 ++ [s2] ++ m3))))

/-- Exactly four digits, for `\d{4}`. -/
def matchD4 (cs : List Char) : Option (List Char × List Char) :=
  match cs with
  | c1 :: c2 :: c3 :: c4 :: rest =>
    if c1.isDigit && c2.isDigit && c3.isDigit && c4.isDigit then
      some ([c1, c2, c3, c4], rest)
    else none
  | _ => none

/-- `, \d{4}` — the tail shared by both ordinal branches of the second
date alternative. -/
def dateAlt2Tail (cs : List Char) : Option (List Char) :=
  match cs with
  | ',' :: ' ' :: rest => (matchD4 rest).map (fun (m, _) => ',' :: ' ' :: m)
  | _ => none

/-- Optional case-insensitive ordinal `(?:st|nd|rd|th)?` followed by the
tail: the greedy optional tries to consume the ordinal first. -/
def dateAlt2Ordinal (cs : List Char) : Option (List Char) :=
  match cs with
  | a :: b :: rest =>
    let low := String.mk [a.toLower, b.toLower]
    if low = "st" || low = "nd" || low = "rd" || low = "th" then
      match dateAlt2Tail rest with
      | some m => some ([a, b] ++ m)
      | none => dateAlt2Tail cs
    else dateAlt2Tail cs
  | _ => dateAlt2Tail cs

/-- Second alternative of the date pattern:
`\w+ \d{1,2}(?:st|nd|rd|th)?, \d{4}` (with the `i` flag) anchored at the
given position.  `\w+` before a literal space backtracks vacuously, so the
maximal run is taken. -/
def dateAlt2At (cs : List Char) : Option (List Char) :=
  let ws := cs.takeWhile isWordChar
  if ws.isEmpty then none
  else
    match cs.dropWhile isWordChar with
    | ' ' :: r1 =>
      firstSome (matchD12 r1) (fun (m1, r2) =>
        (dateAlt2Ordinal r2).map (fun m2 => ws ++ [' '] ++ m1 ++ m2))
    | _ => none

/-- The date pattern of `createTrelloCardFromEmail` (line 680) anchored at
one position: the left alternative is preferred. -/
def dateAt (cs : List Char) : Option (List Char) :=
  match dateAlt1At cs with
  | some m => some m
  | none => dateAlt2At cs

/-- Leftmost match of an anchored matcher, as `String.prototype.match`
with a non-global regex. -/
def findMatchIn (matchAt : List Char → Option (List Char)) :
    List Char → Option (List Char)
  | [] => none
  | c :: rest =>
    match matchAt (c :: rest) with
    | some m => some m
    | none => findMatchIn matchAt rest

/-- `snippet.match(datePattern)`, reduced to the full-match string. -/
def findDateMatch (s : String) : Option String :=
  (findMatchIn dateAt s.toList).map String.mk

/-- Core of the time pattern after the hour digits:
`:\d{2}(?:\s*[AaPp][Mm])?`.  The greedy `\s*` cannot backtrack usefully
because whitespace is not in `[AaPp]`. -/
def isAP (c : Char) : Bool := c = 'A' || c = 'a' || c = 'P' || c = 'p'

def isM (c : Char) : Bool := c = 'M' || c = 'm'

def matchTimeCore (hd : List Char) (cs : List Char) : Option (List Char) :=
  match cs with
  | ':' :: c1 :: c2 :: rest =>
    if c1.isDigit && c2.isDigit then
      let base := hd ++ [':', c1, c2]
      let sp := rest.takeWhile isSpaceJS
      match rest.dropWhile isSpaceJS with
      | a :: m :: _ => if isAP a && isM m then some (base ++ sp ++ [a, m]) else some base
      | _ => some base
    else none
  | _ => none

/-- The time pattern of `createTrelloCardFromEmail` (line 681),
`\d{1,2}:\d{2}(?:\s*[AaPp][Mm])?`, anchored at one position (greedy
two-digit hour tried first). -/
def timeAt (cs : List Char) : Option (List Char) :=
  match cs with
  | c :: rest =>
    if c.isDigit then
      match rest with
      | c2 :: rest2 =>
        if c2.isDigit then
          match matchTimeCore [c, c2] rest2 with
          | some m => some m
          | none => matchTimeCore [c] rest
        else matchTimeCore [c] rest
      | [] => none
    else none
  | [] => none

/-- `snippet.match(timePattern)`, reduced to the captured string (the first
group spans the whole match). -/
def findTimeMatch (s : String) : Option String :=
  (findMatchIn timeAt s.toList).map String.mk

/-- `String.prototype.split` with a single-character separator. -/
def splitCharAux (sep : Char) : List Char → List Char → List String
  | [], acc => [String.mk acc.reverse]
  | c :: t, acc =>
    if c = sep then String.mk acc.reverse :: splitCharAux sep t []
    else splitCharAux sep t (c :: acc)

/-- `timeMatch[1].split(':')` (line 690). -/
def jsSplitColon (s : String) : List String := splitCharAux ':' s.toList []

/-- A calendar instant as a JavaScript `Date` is used here: the base date
produced by `new Date(dateString)` plus the fields `setHours` touches.
`day` is not re-normalized across month boundaries, which is only
observable for hour/minute values beyond one day. -/
structure JDate where
  year : Int
  month : Int
  day : Int
  hour : Int
  minute : Int
deriving DecidableEq, Repr

/-- `date.setHours(hours, minutes)` (line 696): replaces the clock fields,
carrying overflow into the day (the values produced by the surrounding
code are non-negative). -/
def setHoursJS (d : JDate) (h m : Int) : JDate :=
  let total := h * 60 + m
  { d with day := d.day + total / 1440,
           hour := total / 60 % 24,
           minute := total % 60 }

/-- The due-date extraction of `createTrelloCardFromEmail`
(lines 680-699), with the host date parser passed as `jsParse` (`none`
models an Invalid Date).  `setHours` on an Invalid Date leaves it invalid
and the final `toISOString()` then throws, as does `parseInt` feeding
`NaN` into `setHours`; both are the `.error` branches. -/
def extractDueDate (jsParse : String → Option JDate) (snippet : String) :
    Except String (Option JDate) :=
  match findDateMatch snippet with
  | none => .ok none
  | some ds =>
    match jsParse ds with
    | none => .error "Invalid time value"
    | some d =>
      match findTimeMatch snippet with
      | none => .ok (some d)
      | some ts =>
        let parts := jsSplitColon ts
        let hours? := parseIntJS (parts.headD "")
        let minutes? :=
          match parts with
          | _ :: p1 :: _ => parseIntJS p1
          | _ => none
        match hours?, minutes? with
        | some h0, some m =>
          let h := if strContains (lowerStr ts) "pm" && decide (h0 < 12)
                   then h0 + 12 else h0
          .ok (some (setHoursJS d h m))
        | _, _ => .error "Invalid time value"

/-- Sentence punctuation `[.?!]`. -/
def isSentencePunct (c : Char) : Bool := c = '.' || c = '?' || c = '!'

/-- Line terminators excluded by `.` (the BMP supplement pair does not
occur in the snippets under consideration). -/
def isLineTerm (c : Char) : Bool := c = '\n' || c = '\r'

/-- `.*?[.?!]` after the first word character: the consumed characters up
to and including the first sentence punctuation, failing on an intervening
line terminator. -/
def scanToPunct : List Char → Option (List Char)
  | [] => none
  | c :: t =>
    if isSentencePunct c then some [c]
    else if isLineTerm c then none
    else (scanToPunct t).map (fun r => c :: r)

/-- The instruction pattern `(please|kindly)\s+(\w+).*?[.?!]` with the `i`
flag (line 702), anchored at one position.  `\s+` before `\w+` and `\w+`
before `.` backtrack vacuously (the classes are disjoint or subsumed), so
maximal whitespace plus first-word-character suffices. -/
def instrAt (cs : List Char) : Option (List Char) :=
  let p6 := cs.take 6
  let low := lowerStr (String.mk p6)
  if (low = "please" || low = "kindly") && p6.length = 6 then
    let rest := cs.drop 6
    let sp := rest.takeWhile isSpaceJS
    if sp.isEmpty then none
    else
      match rest.dropWhile isSpaceJS with
      | c :: r2 =>
        if isWordChar c then
          (scanToPunct r2).map (fun tail => p6 ++ sp ++ [c] ++ tail)
        else none
      | [] => none
  else none

/-- `snippet.match(/(please|kindly)\s+(\w+).*?[.?!]/i)`, reduced to the
full-match string (`instructionMatch[0]`, line 703). -/
def findInstruction (s : String) : Option String :=
  (findMatchIn instrAt s.toList).map String.mk

/-- A processed email (the `GmailMessage` assembled by `processMessage`,
lines 579-593).  Fields are kept as raw values; the `|| ''` defaults are
already applied. -/
structure ProcessedEmail where
  id : JS
  from_ : JS
  subject : JS
  snippet : JS
  payload : JS
  internalDate : JS
  labelIds : JS

/-- The header search
`payload?.headers?.find((h) => h.name.toLowerCase() === target)`: each
step reads `h.name` (throws on a nullish header entry) and lowercases it
(throws on a non-string name). -/
def findHdr (hs : List JS) (target : String) : Except String (Option JS) :=
  match hs with
  | [] => .ok none
  | h :: t => do
    let n ← getF h "name"
    let s ← jsToLowerCase n
    if s = target then .ok (some h) else findHdr t target

/-- `message.payload?.headers?.find(...)?.value || ''` (lines 581-582):
optional chaining turns a nullish `payload` or `headers` or a missing
header into `''`; calling `.find` on a truthy non-array throws. -/
def headerLookup (payload : JS) (target : String) : Except String JS :=
  if truthy payload then do
    let headers := fget payload "headers"
    match headers with
    | .arr hs => do
      let found ← findHdr hs target
      match found with
      | none => .ok (.str "")
      | some h => do
        let v ← getF h "value"
        .ok (jsOr v (.str ""))
    | .null => .ok (.str "")
    | .undefined => .ok (.str "")
    | _ => .error "find is not a function"
  else .ok (.str "")

/-- `processMessage` (lines 579-593): header extraction for `from` and
`subject`, then the record with `|| ''` / `|| {headers: []}` / `|| []`
defaults.  Reading `message.payload` throws when the message itself is
nullish. -/
def processMessage (msg : JS) : Except String ProcessedEmail := do
  let payload ← getF msg "payload"
  let from_ ← headerLookup payload "from"
  let subject ← headerLookup payload "subject"
  .ok { id := fget msg "id",
        from_ := from_,
        subject := subject,
        snippet := jsOr (fget msg "snippet") (.str ""),
        payload := jsOr payload (.obj [("headers", .arr [])]),
        internalDate := jsOr (fget msg "internalDate") (.str ""),
        labelIds := jsOr (fget msg "labelIds") (.arr []) }

/-- The receiver of `.match(...)`: must be a string, a `TypeError`
otherwise. -/
def asMatchReceiver (v : JS) : Except String String :=
  match v with
  | .str s => .ok s
  | _ => .error "match is not a function"

/-- The card payload handed to `trelloConnector.createCard`
(lines 712-716); `due` is the optional composed instant (serialized with
`toISOString()` in the source). -/
structure CardInput where
  name : String
  desc : String
  due : Option JDate

/-- The name/description composition (lines 702-716): `fmtLocale` models
the locale rendering `new Date(dueDate).toLocaleString()`. -/
def buildCardInput (pe : ProcessedEmail) (due? : Option JDate)
    (instr : Option String) (fmtLocale : JDate → String) : CardInput :=
  { name := if truthy pe.subject then jsToString pe.subject else "No Subject",
    desc :=
      "Re: " ++ (if truthy pe.subject then jsToString pe.subject else "No Subject")
        ++ "\n"
      ++ "From: " ++ (if truthy pe.from_ then jsToString pe.from_ else "Unknown")
        ++ "\n"
      ++ (match instr with
          | some i => "Action: " ++ i ++ "\n"
          | none => "")
      ++ (match due? with
          | some d => "Due: " ++ fmtLocale d
          | none => ""),
    due := due? }

/-- The `try`-block of `createTrelloCardFromEmail` (lines 674-718):
fetch the message (result passed in as `fetchResult`), normalize it,
extract due date and instruction from the snippet, build the card payload
and call `createCard` (which itself never throws: it has its own catch and
returns the sentinel). -/
def composePipeline (fetchResult : Except String JS)
    (jsParse : String → Option JDate) (fmtLocale : JDate → String)
    (createCard : CardInput → Option JS) : Except String (Option JS) := do
  let email ← fetchResult
  let pe ← processMessage email
  let snip ← asMatchReceiver pe.snippet
  let due? ← extractDueDate jsParse snip
  let instr := findInstruction snip
  .ok (createCard (buildCardInput pe due? instr fmtLocale))

/-- `createTrelloCardFromEmail` (lines 669-723): the catch maps every
pipeline error to the `null` sentinel. -/
def createTrelloCardFromEmail (fetchResult : Except String JS)
    (jsParse : String → Option JDate) (fmtLocale : JDate → String)
    (createCard : CardInput → Option JS) : Option JS :=
  match composePipeline fetchResult jsParse fmtLocale createCard with
  | .ok c => c
  | .error _ => none

/- ----------------------------------------------------------------
   ConnectorFactory (api-connectors.ts lines 727-740)
   ---------------------------------------------------------------- -/

/-- The three connector classes, as constructed by the factory. -/
inductive Connector where
  | trello (token : Option String)
  | notion (token : Option String)
  | gmail (token : Option String)
deriving DecidableEq, Repr

/-- `ConnectorFactory.createConnector` (lines 728-739): case-insensitive
switch on the type tag; the default branch throws
`Unsupported integration type: <type>` with the original tag. -/
def createConnector (ty : String) (token : Option String) :
    Except String Connector :=
  let t := lowerStr ty
  if t = "trello" then .ok (.trello token)
  else if t = "notion" then .ok (.notion token)
  else if t = "gmail" then .ok (.gmail token)
  else .error ("Unsupported integration type: " ++ ty)

/- ----------------------------------------------------------------
   MemStorage widgets (server/storage.ts, schema in shared/schema.ts)
   ---------------------------------------------------------------- -/

/-- The `{x, y, w, h}` grid rectangle of `updateWidgetPositionSchema`
(shared/schema.ts). -/
structure GridRect where
  x : Int
  y : Int
  w : Int
  h : Int
deriving DecidableEq, Repr

/-- The widget insert payload (`insertWidgetSchema`): `id`, `createdAt` and
`userId` omitted; `config`, `position` and `gridPosition` nullable. -/
structure InsertWidget where
  type : String
  name : String
  config : JS
  position : Option Int
  gridPosition : Option GridRect

/-- A stored widget record (`widgets` table row). -/
structure Widget where
  id : Nat
  userId : Option Nat
  type : String
  name : String
  config : JS
  position : Int
  gridPosition : GridRect
  createdAt : Nat

/-- The widget-relevant part of `MemStorage` (storage.ts): the
`Map<number, Widget>` as an association list plus the id counter.  The
user and integration maps are independent of the widget operations and
are not modelled. -/
structure MemStorage where
  widgets : List (Nat × Widget)
  currentWidgetId : Nat

/-- `Map.prototype.set`: replace the binding in place if the key is
present (keys of a `Map` are unique), append it otherwise. -/
def setAssoc (m : List (Nat × Widget)) (k : Nat) (v : Widget) :
    List (Nat × Widget) :=
  match m with
  | [] => [(k, v)]
  | (k', v') :: t => if k' = k then (k, v) :: t else (k', v') :: setAssoc t k v

/-- `MemStorage.getWidget` (storage.ts lines 196-198): `this.widgets.get(id)`. -/
def MemStorage.getWidget (st : MemStorage) (id : Nat) : Option Widget :=
  st.widgets.lookup id

/-- `MemStorage.createWidget` (storage.ts lines 200-220): take the next id,
apply the `config || {}`, `position ?? 0` and
`gridPosition || {x: 0, y: 0, w: 1, h: 1}` defaults, store and return the
widget.  `now` models `new Date()`. -/
def MemStorage.createWidget (st : MemStorage) (iw : InsertWidget)
    (userId : Option Nat) (now : Nat) : Widget × MemStorage :=
  let id := st.currentWidgetId
  let w : Widget :=
    { id := id, userId := userId, type := iw.type, name := iw.name,
      config := if truthy iw.config then iw.config else .obj [],
      position := iw.position.getD 0,
      gridPosition := iw.gridPosition.getD { x := 0, y := 0, w := 1, h := 1 },
      createdAt := now }
  (w, { widgets := setAssoc st.widgets id w,
        currentWidgetId := st.currentWidgetId + 1 })

/- ----------------------------------------------------------------
   Theorems
   ---------------------------------------------------------------- -/

/-- Filtering after mapping is mapping after filtering the composed
predicate. -/
theorem listFilterMapComm (f : α → β) (p : β → Bool) (l : List α) :
    (l.map f).filter p = (l.filter (fun a => p (f a))).map f := by
  induction l with
  | nil => rfl
  | cons a t ih =>
    by_cases h : p (f a) <;> simp [List.filter, h, ih]

/-- A flatMap of mapped blocks is the map of the flatMap. -/
theorem listFlatMapMap (g : α → List β) (h : β → γ) (l : List α) :
    l.flatMap (fun a => (g a).map h) = (l.flatMap g).map h := by
  induction l with
  | nil => rfl
  | cons a t ih => simp [List.flatMap_cons, ih]

/-- C1.  `listCardsDueWithin(days)` returns (the status-enhanced copies of)
exactly those fetched cards, in upstream board-by-board order with no
re-sorting, whose due string is present, non-empty, parses as a valid
instant `t`, and satisfies `now ≤ t ≤ now + days` (both bounds inclusive);
cards with an absent or unparseable due date are excluded. -/
theorem cardsDueWithin_exact_window (boards : List TrelloBoard)
    (listsOf : String → List TrelloList) (cardsOf : String → List TrelloCard)
    (now days : Int) (parse : String → Option Int) :
    (getCardsDueWithin boards listsOf cardsOf now days parse).map EnhancedCard.card
      = (boards.flatMap (fun b => cardsOf b.id)).filter
          (fun c => cardDueFilter parse now days c.due)
    ∧ ∀ c : TrelloCard,
        cardDueFilter parse now days c.due = true ↔
          ∃ s t, c.due = some s ∧ s ≠ "" ∧ parse s = some t ∧
            now ≤ t ∧ t ≤ now + days * msPerDay := by
  constructor
  · unfold getCardsDueWithin
    by_cases hb : boards.isEmpty
    · rw [List.isEmpty_iff] at hb
      subst hb
      rfl
    · simp only [hb, Bool.false_eq_true, if_false]
      rw [listFlatMapMap (fun b => cardsOf b.id)
        (enhanceCard (buildBoardLists boards listsOf)) boards]
      rw [listFilterMapComm]
      rw [List.map_map]
      exact List.map_id _
  · intro c
    unfold cardDueFilter
    cases hdue : c.due with
    | none => simp
    | some s =>
      by_cases hs : s = ""
      · subst hs
        simp
      · cases hp : parse s with
        | none => simp [hs, hp]
        | some t =>
          simp only [hs, if_false, hp, Bool.and_eq_true, decide_eq_true_eq,
            Option.some.injEq]
          constructor
          · rintro ⟨h1, h2⟩
            exact ⟨s, t, rfl, hs, hp, h1, h2⟩
          · rintro ⟨s', t', rfl, hs', hp', h1, h2⟩
            rw [hp] at hp'
            cases hp'
            exact ⟨h1, h2⟩

/-- C10.  The due-window filter reads only the due string, never the
completion flag, and any fetched card passing the filter — completed or
not — appears (status-enhanced) in the result. -/
theorem cardsDueWithin_ignores_dueComplete (boards : List TrelloBoard)
    (listsOf : String → List TrelloList) (cardsOf : String → List TrelloCard)
    (now days : Int) (parse : String → Option Int) (c : TrelloCard) :
    (∀ b : Bool, cardDueFilter parse now days
        ({ c with dueComplete := b } : TrelloCard).due
      = cardDueFilter parse now days c.due)
    ∧ (c ∈ boards.flatMap (fun bd => cardsOf bd.id) →
       cardDueFilter parse now days c.due = true →
       enhanceCard (buildBoardLists boards listsOf) c ∈
         getCardsDueWithin boards listsOf cardsOf now days parse) := by
  refine ⟨fun _ => rfl, fun hmem hdue => ?_⟩
  unfold getCardsDueWithin
  have hne : boards.isEmpty = false := by
    cases boards with
    | nil => simp at hmem
    | cons b t => rfl
  simp only [hne, Bool.false_eq_true, if_false]
  rw [List.mem_filter]
  constructor
  · rw [List.mem_flatMap] at hmem ⊢
    obtain ⟨b, hb, hc⟩ := hmem
    exact ⟨b, hb, List.mem_map_of_mem _ hc⟩
  · exact hdue

/-- Fixture data for the completed-card witness. -/
def cardW : TrelloCard :=
  { id := "c1", name := "n", desc := "d", due := some "D", dueComplete := true,
    idBoard := "b1", idList := "l1", labels := [] }

def boardW : TrelloBoard := { id := "b1", name := "B", shortUrl := "u" }

def parseW : String → Option Int := fun s => if s = "D" then some 5 else none

/-- Witness for C10: a card with `dueComplete = true` due inside the window
really is returned. -/
theorem cardsDueWithin_ignores_dueComplete_witness :
    enhanceCard (buildBoardLists [boardW] (fun _ => [])) cardW ∈
      getCardsDueWithin [boardW] (fun _ => []) (fun _ => [cardW]) 0 1 parseW :=
  (cardsDueWithin_ignores_dueComplete [boardW] (fun _ => [])
      (fun _ => [cardW]) 0 1 parseW cardW).2
    (by simp [boardW]) (by decide)


/-- Bind on a successful `Except` computes the continuation. -/
theorem exceptOkBind (a : α) (f : α → Except ε β) :
    (Except.ok a >>= f : Except ε β) = f a := rfl

/-- Is the value a plain object? -/
def isPlainObj : JS → Bool
  | .obj _ => true
  | _ => false

/-- Fields of an object value. -/
def propsFields : JS → List (String × JS)
  | .obj fs => fs
  | _ => []

/-- The property names of the direct title lookup chain (lines 320-323). -/
def titleKeyNames : List String := ["title", "Title", "Name", "name"]

/-- A property value that carries no title-like content: a plain object
whose `type` is not `'title'` and whose `title` / `rich_text` fields are
not non-empty arrays. -/
def propNoTitleContent (v : JS) : Bool :=
  isPlainObj v
  && !(isStrEqB (fget v "type") "title")
  && !(truthy (fget v "title") && isArrB (fget v "title")
       && decide (0 < (elemsOf (fget v "title")).length))
  && !(truthy (fget v "rich_text") && isArrB (fget v "rich_text")
       && decide (0 < (elemsOf (fget v "rich_text")).length))

/-- A page with no recognizable title: a plain object whose `properties`
are absent or a plain object with no property named
title/Title/Name/name and no title-like content in any property, and with
no child-page title. -/
def noRecognizableTitlePage (page : JS) : Bool :=
  isPlainObj page
  && (!truthy (fget page "properties")
      || (isPlainObj (fget page "properties")
          && (propsFields (fget page "properties")).all
               (fun kv => decide (kv.1 ∉ titleKeyNames) && propNoTitleContent kv.2)))
  && !(truthy (fget page "child_page")
       && truthy (fget (fget page "child_page") "title"))

theorem isPlainObjElim {v : JS} (h : isPlainObj v = true) :
    ∃ fs, v = .obj fs := by
  cases v <;> simp [isPlainObj] at h ⊢

theorem lookupNoneOfNoKey (fs : List (String × JS)) (k : String)
    (h : ∀ kv ∈ fs, kv.1 ≠ k) : fs.lookup k = none := by
  induction fs with
  | nil => rfl
  | cons a t ih =>
    have ha : a.1 ≠ k := h a (List.mem_cons_self a t)
    have hk : (k == a.1) = false := by
      simp only [beq_eq_false_iff_ne, ne_eq]
      exact fun hkk => ha hkk.symm
    cases a with
    | mk a1 a2 =>
      simp only [List.lookup, hk]
      exact ih (fun kv hkv => h kv (List.mem_cons_of_mem _ hkv))

theorem findByTypeTitleNone (vs : List JS)
    (h : ∀ v ∈ vs, propNoTitleContent v = true) :
    findByTypeTitle vs = .ok none := by
  induction vs with
  | nil => rfl
  | cons v t ih =>
    have hv := h v (List.mem_cons_self v t)
    simp only [propNoTitleContent, Bool.and_eq_true, Bool.not_eq_true'] at hv
    obtain ⟨⟨⟨hobj, hty⟩, _⟩, _⟩ := hv
    obtain ⟨fs, rfl⟩ := isPlainObjElim hobj
    unfold findByTypeTitle
    rw [show getF (.obj fs) "type" = Except.ok (fget (.obj fs) "type") from rfl]
    rw [exceptOkBind]
    rw [hty]
    simp only [Bool.false_eq_true, if_false]
    exact ih (fun w hw => h w (List.mem_cons_of_mem _ hw))

theorem scanPropsNone (vs : List JS)
    (h : ∀ v ∈ vs, propNoTitleContent v = true) :
    scanPropsForTitle vs = .ok none := by
  induction vs with
  | nil => rfl
  | cons v t ih =>
    have hv := h v (List.mem_cons_self v t)
    simp only [propNoTitleContent, Bool.and_eq_true, Bool.not_eq_true'] at hv
    obtain ⟨⟨⟨hobj, _⟩, htitle⟩, hrich⟩ := hv
    obtain ⟨fs, rfl⟩ := isPlainObjElim hobj
    unfold scanPropsForTitle
    rw [show getF (.obj fs) "title" = Except.ok (fget (.obj fs) "title") from rfl]
    rw [exceptOkBind]
    rw [htitle]
    simp only [Bool.false_eq_true, if_false]
    rw [show getF (.obj fs) "rich_text" = Except.ok (fget (.obj fs) "rich_text") from rfl]
    rw [exceptOkBind]
    rw [hrich]
    simp only [Bool.false_eq_true, if_false]
    exact ih (fun w hw => h w (List.mem_cons_of_mem _ hw))

theorem truthyOfPlainObj {v : JS} (h : isPlainObj v = true) : truthy v = true := by
  cases v <;> simp [isPlainObj, truthy] at h ⊢

/-- A page with no recognizable title is extracted as `"Untitled"` by the
`getRecentPages` title algorithm (no exception arises, so the catch
fallback is not reached). -/
theorem extractUntitledOfNoRecognizable (page : JS)
    (h : noRecognizableTitlePage page = true) :
    extractTitleRecent page = .ok "Untitled" := by
  simp only [noRecognizableTitlePage, Bool.and_eq_true, Bool.or_eq_true,
    Bool.not_eq_true'] at h
  obtain ⟨⟨hobj, hprops⟩, hchild⟩ := h
  obtain ⟨fs, rfl⟩ := isPlainObjElim hobj
  have hchildpage : applyChildPage (.obj fs) "Untitled" = "Untitled" := by
    unfold applyChildPage
    by_cases hcp : truthy (fget (.obj fs) "child_page")
    · rcases Bool.and_eq_false_iff.mp hchild with hc | hc
      · rw [hcp] at hc; cases hc
      · simp only [hcp, if_true, hc, Bool.false_eq_true, if_false]
    · simp only [Bool.not_eq_true] at hcp
      simp only [hcp, Bool.false_eq_true, if_false]
  have hbody : extractTitleRecentE (.obj fs) = .ok "Untitled" := by
    unfold extractTitleRecentE
    rw [show getF (.obj fs) "properties"
        = Except.ok (fget (.obj fs) "properties") from rfl]
    rw [exceptOkBind]
    rcases hprops with hfalsy | ⟨hpobj, hall⟩
    · rw [hfalsy]
      simp only [Bool.false_eq_true, if_false, exceptOkBind]
      rw [hchildpage]
    · obtain ⟨ps, hps⟩ := isPlainObjElim hpobj
      rw [hps] at hall ⊢
      simp only [propsFields] at hall
      have hmem := List.all_eq_true.mp hall
      have hkeys : ∀ k ∈ titleKeyNames, ps.lookup k = none := by
        intro k hk
        apply lookupNoneOfNoKey
        intro kv hkv
        have h2 := hmem kv hkv
        rw [Bool.and_eq_true] at h2
        exact fun he => (of_decide_eq_true h2.1) (he ▸ hk)
      have hvals : ∀ v ∈ ps.map Prod.snd, propNoTitleContent v = true := by
        intro v hv
        obtain ⟨kv, hkv, rfl⟩ := List.mem_map.mp hv
        have h2 := hmem kv hkv
        rw [Bool.and_eq_true] at h2
        exact h2.2
      have hfg : ∀ k ∈ titleKeyNames, fget (JS.obj ps) k = JS.undefined := by
        intro k hk
        show (ps.lookup k).getD .undefined = .undefined
        rw [hkeys k hk]
        rfl
      rw [show truthy (JS.obj ps) = true from rfl]
      rw [if_pos rfl]
      rw [hfg "title" (by simp [titleKeyNames]),
          hfg "Title" (by simp [titleKeyNames]),
          hfg "Name" (by simp [titleKeyNames]),
          hfg "name" (by simp [titleKeyNames])]
      simp only [jsOr, truthy, Bool.false_eq_true, if_false, objValues]
      rw [findByTypeTitleNone _ hvals]
      simp only [exceptOkBind, Option.getD_none]
      simp only [truthy, Bool.false_eq_true, if_false]
      rw [scanPropsNone _ hvals]
      simp only [exceptOkBind, Option.getD_none]
      rw [hchildpage]
  unfold extractTitleRecent
  rw [hbody]

/-- A page with an id, empty `properties`, and no child page: no
recognizable title property at all. -/
def pageNoTitleCex : JS :=
  .obj [("id", .str "abcdefgh-1234-5678"), ("properties", .obj []),
    ("url", .str "u"), ("last_edited_time", .str "t")]

/-- C2 counterexample.  A page with no recognizable title property is
normalized with title `"Untitled"`, not `"Page " + id[0:8]` — the
identifier-prefix fallback of the claim is not produced on this input
(though the page does still appear in the result). -/
theorem notionTitle_fallback_cex :
    extractTitleRecent pageNoTitleCex = .ok "Untitled"
    ∧ getRecentPagesTransform [pageNoTitleCex]
        = .ok [mkNotionPage pageNoTitleCex "Untitled"]
    ∧ ("Untitled" : String) ≠ "Page " ++ takeFirst8 "abcdefgh-1234-5678" :=
  ⟨rfl, rfl, by decide⟩

/-- C2 (amended).  A page with no recognizable title property whose
extraction raises no exception is titled `"Untitled"` (the
`"Page " + id[0:8]` fallback is reserved for the catch handler), and such
pages still appear in the `getRecentPages` result, one record per input
page, rather than failing the fetch. -/
theorem notionTitle_untitled_fallback :
    (∀ page : JS, noRecognizableTitlePage page = true →
        extractTitleRecent page = .ok "Untitled")
    ∧ ∀ results : List JS,
        (∀ p ∈ results, noRecognizableTitlePage p = true) →
        getRecentPagesTransform results
          = .ok (results.map (fun p => mkNotionPage p "Untitled")) := by
  constructor
  · exact extractUntitledOfNoRecognizable
  · intro results
    induction results with
    | nil => intro _; rfl
    | cons p t ih =>
      intro h
      unfold getRecentPagesTransform
      rw [extractUntitledOfNoRecognizable p (h p (List.mem_cons_self p t))]
      rw [exceptOkBind]
      rw [ih (fun q hq => h q (List.mem_cons_of_mem _ hq))]
      rw [exceptOkBind]
      rfl

/-- Witness for the amended C2 theorem at the concrete no-title page. -/
theorem notionTitle_untitled_fallback_witness :
    extractTitleRecent pageNoTitleCex = .ok "Untitled"
    ∧ getRecentPagesTransform [pageNoTitleCex]
        = .ok [mkNotionPage pageNoTitleCex "Untitled"] := by
  constructor
  · exact notionTitle_untitled_fallback.1 pageNoTitleCex (by decide)
  · exact notionTitle_untitled_fallback.2 [pageNoTitleCex]
      (fun p hp => by
        rw [List.mem_singleton] at hp
        subst hp
        decide)

/-- A page whose only property has `type: 'title'` but an empty `title`
array: the find-by-type tier of `getRecentPages` picks it up (joining the
empty array to `""`), while `searchPages` — which lacks that tier — scans
past it and keeps `"Untitled"`. -/
def pageTypeTitleEmptyCex : JS :=
  .obj [("id", .str "deadbeef-cafe"),
    ("properties", .obj [("prop1", .obj [("type", .str "title"), ("title", .arr [])])])]

/-- C3.  The title algorithms of `getRecentPages` and `searchPages` are not
the same function: on `pageTypeTitleEmptyCex` the former yields `""` and
the latter `"Untitled"`, contradicting the source comment
"Use the same page parsing logic as in getRecentPages". -/
theorem notionTitle_recent_search_diverge :
    extractTitleRecent pageTypeTitleEmptyCex = .ok ""
    ∧ extractTitleSearch pageTypeTitleEmptyCex = .ok "Untitled"
    ∧ (Except.ok "" : Except String String) ≠ .ok "Untitled" := by
  refine ⟨rfl, rfl, fun h => ?_⟩
  have h2 : ("" : String) = "Untitled" := by injection h
  exact absurd h2 (by decide)

/-- Bind on a failed `Except` short-circuits. -/
theorem exceptErrBind (e : ε) (f : α → Except ε β) :
    (Except.error e >>= f : Except ε β) = .error e := rfl

/-- A successful POST body for the created-page record. -/
def goodPageData : JS :=
  .obj [("id", .str "pg1"), ("last_edited_time", .str "t1"), ("url", .str "u1")]

/-- C6 counterexample.  `createPage` with an absent `parentId` returns the
absent sentinel even though transport would succeed: the
required-parameter error is thrown inside the `try` and swallowed by the
catch-all, so the operation does not fail fast to its caller. -/
theorem createPage_missing_parent_cex :
    createPage "T" none (.ok goodPageData) = none
    ∧ createPageInner "T" none (.ok goodPageData)
        = .error "Parent ID is required to create a Notion page" :=
  ⟨rfl, rfl⟩

/-- C6 (amended).  For every falsy `parentId` the required-parameter error
is raised internally and immediately caught; the caller receives the
absent sentinel, indistinguishable from a transport failure. -/
theorem createPage_missing_parent_sentinel (title : String)
    (parentId : Option String) (fetchResult : Except String JS)
    (h : jsFalsyOptStr parentId = true) :
    createPageInner title parentId fetchResult
      = .error "Parent ID is required to create a Notion page"
    ∧ createPage title parentId fetchResult = none := by
  have hinner : createPageInner title parentId fetchResult
      = .error "Parent ID is required to create a Notion page" := by
    unfold createPageInner
    rw [h]
    simp
  refine ⟨hinner, ?_⟩
  unfold createPage
  rw [hinner]

/-- Witness for the amended C6 theorem at an absent parent id. -/
theorem createPage_missing_parent_sentinel_witness :
    createPageInner "T" (none : Option String) (.ok goodPageData)
      = .error "Parent ID is required to create a Notion page"
    ∧ createPage "T" (none : Option String) (.ok goodPageData) = none :=
  createPage_missing_parent_sentinel "T" none (.ok goodPageData) (by decide)

/-- C7.  `createConnector` matches the tag case-insensitively against the
supported set and always yields a usable connector for a supported tag;
any other tag fails with an unsupported-type error naming the offending
tag, and no connector is returned. -/
theorem createConnector_type_dispatch (s : String) (token : Option String) :
    (lowerStr s ∈ (["trello", "notion", "gmail"] : List String) →
      ∃ c : Connector, createConnector s token = .ok c)
    ∧ (lowerStr s ∉ (["trello", "notion", "gmail"] : List String) →
      createConnector s token
        = .error ("Unsupported integration type: " ++ s)) := by
  constructor
  · intro h
    simp only [List.mem_cons, List.mem_singleton, List.not_mem_nil,
      or_false] at h
    unfold createConnector
    rcases h with h1 | h1 | h1 <;> rw [h1] <;> simp
  · intro h
    simp only [List.mem_cons, List.mem_singleton, List.not_mem_nil,
      or_false, not_or] at h
    obtain ⟨h1, h2, h3⟩ := h
    unfold createConnector
    rw [if_neg h1, if_neg h2, if_neg h3]

/-- Witness for C7: a supported tag in capitals succeeds, an unsupported
tag fails with the named error. -/
theorem createConnector_type_dispatch_witness :
    (∃ c : Connector, createConnector "TRELLO" none = .ok c)
    ∧ createConnector "jira" none
        = .error "Unsupported integration type: jira" :=
  ⟨(createConnector_type_dispatch "TRELLO" none).1 (by decide),
   (createConnector_type_dispatch "jira" none).2 (by decide)⟩

/-- C8.  For every non-2xx response, the three task-board list operations
return the empty sequence (no error escapes), while the notes page-content
fetch propagates the typed transport error to its caller. -/
theorem non2xx_list_empty_content_raises (resp resp2 : HttpResp)
    (h : resp.ok = false) :
    getBoards resp = [] ∧ getLists resp = [] ∧ getCardsOnList resp = []
    ∧ getPageContent resp resp2
        = .error ("Notion API error: " ++ toString resp.status ++ " "
            ++ resp.statusText) := by
  have ht : fetchFromTrello resp
      = .error ("Trello API error: " ++ toString resp.status ++ " "
          ++ resp.statusText) := by
    unfold fetchFromTrello
    rw [h]
    simp
  have hn : fetchFromNotion resp
      = .error ("Notion API error: " ++ toString resp.status ++ " "
          ++ resp.statusText) := by
    unfold fetchFromNotion
    rw [h]
    simp
  refine ⟨?_, ?_, ?_, ?_⟩
  · unfold getBoards; rw [ht]
  · unfold getLists; rw [ht]
  · unfold getCardsOnList; rw [ht]
  · unfold getPageContent
    rw [hn, exceptErrBind]

/-- A concrete HTTP 500 response. -/
def resp500 : HttpResp :=
  { ok := false, status := 500, statusText := "Internal Server Error",
    body := .null }

def respOk : HttpResp :=
  { ok := true, status := 200, statusText := "OK", body := .null }

/-- Witness for C8 at an HTTP 500 response. -/
theorem non2xx_list_empty_content_raises_witness :
    getBoards resp500 = [] ∧ getLists resp500 = []
    ∧ getCardsOnList resp500 = []
    ∧ getPageContent resp500 respOk
        = .error "Notion API error: 500 Internal Server Error" :=
  non2xx_list_empty_content_raises resp500 respOk (by decide)

theorem lookupSetAssoc (m : List (Nat × Widget)) (k : Nat) (v : Widget) :
    (setAssoc m k v).lookup k = some v := by
  induction m with
  | nil => simp [setAssoc, List.lookup]
  | cons a t ih =>
    cases a with
    | mk k' v' =>
      unfold setAssoc
      by_cases hk : k' = k
      · rw [if_pos hk]
        simp [List.lookup]
      · rw [if_neg hk]
        have hne : (k == k') = false := by
          simp only [beq_eq_false_iff_ne, ne_eq]
          exact fun e => hk e.symm
        simp only [List.lookup, hne]
        exact ih

/-- C9.  A widget created with a given grid rectangle is stored under its
assigned id, re-fetching it returns the very same record (hence the same
rectangle values), its rectangle is always present, defaulting to the unit
cell at origin when none is supplied, and a supplied rectangle is kept
verbatim. -/
theorem widget_grid_roundtrip (st : MemStorage) (iw : InsertWidget)
    (userId : Option Nat) (now : Nat) :
    MemStorage.getWidget (MemStorage.createWidget st iw userId now).2
        (MemStorage.createWidget st iw userId now).1.id
      = some (MemStorage.createWidget st iw userId now).1
    ∧ (MemStorage.createWidget st iw userId now).1.gridPosition
        = iw.gridPosition.getD { x := 0, y := 0, w := 1, h := 1 }
    ∧ ∀ r : GridRect, iw.gridPosition = some r →
        (MemStorage.createWidget st iw userId now).1.gridPosition = r := by
  refine ⟨?_, rfl, ?_⟩
  · unfold MemStorage.getWidget MemStorage.createWidget
    exact lookupSetAssoc _ _ _
  · intro r hr
    show iw.gridPosition.getD { x := 0, y := 0, w := 1, h := 1 } = r
    rw [hr]
    rfl

/-- A concrete insert payload carrying an explicit rectangle. -/
def iwW : InsertWidget :=
  { type := "trello-tasks", name := "Tasks", config := .obj [],
    position := some 0, gridPosition := some { x := 2, y := 3, w := 4, h := 5 } }

/-- Witness for C9: the created widget is re-fetched intact and keeps the
supplied rectangle. -/
theorem widget_grid_roundtrip_witness :
    MemStorage.getWidget
        (MemStorage.createWidget ⟨[], 1⟩ iwW (some 7) 0).2
        (MemStorage.createWidget ⟨[], 1⟩ iwW (some 7) 0).1.id
      = some (MemStorage.createWidget ⟨[], 1⟩ iwW (some 7) 0).1
    ∧ (MemStorage.createWidget ⟨[], 1⟩ iwW (some 7) 0).1.gridPosition
        = { x := 2, y := 3, w := 4, h := 5 } :=
  ⟨(widget_grid_roundtrip ⟨[], 1⟩ iwW (some 7) 0).1,
   (widget_grid_roundtrip ⟨[], 1⟩ iwW (some 7) 0).2.2
     { x := 2, y := 3, w := 4, h := 5 } rfl⟩

/-- C5.  The composer never raises: a pipeline error of any origin is
caught and becomes the absent sentinel; and when the snippet has no
date-like substring, the card is created through `createCard` with an
absent due field and the call returns normally. -/
theorem composer_no_date_best_effort (fetchResult : Except String JS)
    (jsParse : String → Option JDate) (fmtLocale : JDate → String)
    (createCard : CardInput → Option JS) :
    (∀ e, composePipeline fetchResult jsParse fmtLocale createCard = .error e →
      createTrelloCardFromEmail fetchResult jsParse fmtLocale createCard = none)
    ∧ (∀ (msg : JS) (pe : ProcessedEmail) (s : String),
        fetchResult = .ok msg → processMessage msg = .ok pe →
        pe.snippet = .str s → findDateMatch s = none →
        createTrelloCardFromEmail fetchResult jsParse fmtLocale createCard
          = createCard (buildCardInput pe none (findInstruction s) fmtLocale)
        ∧ (buildCardInput pe none (findInstruction s) fmtLocale).due = none) := by
  constructor
  · intro e he
    unfold createTrelloCardFromEmail
    rw [he]
  · intro msg pe s hf hp hs hd
    have hdd : extractDueDate jsParse s = .ok none := by
      unfold extractDueDate
      rw [hd]
    have hpipe : composePipeline fetchResult jsParse fmtLocale createCard
        = .ok (createCard (buildCardInput pe none (findInstruction s) fmtLocale)) := by
      unfold composePipeline
      rw [hf, exceptOkBind, hp, exceptOkBind, hs]
      rw [show asMatchReceiver (JS.str s) = Except.ok s from rfl]
      rw [exceptOkBind, hdd, exceptOkBind]
    refine ⟨?_, rfl⟩
    unfold createTrelloCardFromEmail
    rw [hpipe]

/-- Shared composer fixtures: a trivial locale formatter and a card
creator recording the card name. -/
def fmtW : JDate → String := fun _ => "formatted"

def createCardW : CardInput → Option JS := fun ci => some (.str ci.name)

/-- A message whose snippet has no date-like substring. -/
def msgNoDate : JS :=
  .obj [("id", .str "m2"), ("snippet", .str "hello world"),
    ("payload", .obj [("headers", .arr [])]), ("internalDate", .str "1"),
    ("labelIds", .arr [])]

/-- The normalization of `msgNoDate`. -/
def peNoDate : ProcessedEmail :=
  { id := .str "m2", from_ := .str "", subject := .str "",
    snippet := .str "hello world", payload := .obj [("headers", .arr [])],
    internalDate := .str "1", labelIds := .arr [] }

/-- Witness for C5: a failing fetch yields the sentinel, and a date-free
snippet yields a card request with an absent due. -/
theorem composer_no_date_best_effort_witness :
    createTrelloCardFromEmail (.error "boom") (fun _ => none) fmtW createCardW
      = none
    ∧ createTrelloCardFromEmail (.ok msgNoDate) (fun _ => none) fmtW createCardW
        = createCardW (buildCardInput peNoDate none
            (findInstruction "hello world") fmtW)
    ∧ (buildCardInput peNoDate none (findInstruction "hello world") fmtW).due
        = none := by
  have h1 := (composer_no_date_best_effort (.error "boom") (fun _ => none)
    fmtW createCardW).1 "boom" rfl
  have h2 := (composer_no_date_best_effort (.ok msgNoDate) (fun _ => none)
    fmtW createCardW).2 msgNoDate peNoDate "hello world" rfl rfl rfl (by decide)
  exact ⟨h1, h2.1, h2.2⟩

/-- C4.  When the snippet carries a date-like substring that parses and a
time-like substring whose match contains a `pm` marker with parsed hour
below 12 (and an in-range minute), the composed due instant carries hour
`h + 12` and minute `m`, and that instant is what reaches `createCard`. -/
theorem composer_pm_hour_adjust (fetchResult : Except String JS)
    (jsParse : String → Option JDate) (fmtLocale : JDate → String)
    (createCard : CardInput → Option JS) (msg : JS) (pe : ProcessedEmail)
    (s ds ts p0 p1 : String) (ps : List String) (d : JDate) (h m : Int)
    (hf : fetchResult = .ok msg) (hp : processMessage msg = .ok pe)
    (hs : pe.snippet = .str s)
    (hdm : findDateMatch s = some ds) (hjp : jsParse ds = some d)
    (htm : findTimeMatch s = some ts)
    (hsplit : jsSplitColon ts = p0 :: p1 :: ps)
    (hh : parseIntJS p0 = some h) (hm : parseIntJS p1 = some m)
    (hpm : strContains (lowerStr ts) "pm" = true)
    (hge : 0 ≤ h) (hlt : h < 12) (hmge : 0 ≤ m) (hmlt : m < 60) :
    extractDueDate jsParse s = .ok (some (setHoursJS d (h + 12) m))
    ∧ (setHoursJS d (h + 12) m).hour = h + 12
    ∧ (setHoursJS d (h + 12) m).minute = m
    ∧ createTrelloCardFromEmail fetchResult jsParse fmtLocale createCard
        = createCard (buildCardInput pe (some (setHoursJS d (h + 12) m))
            (findInstruction s) fmtLocale) := by
  have hdd : extractDueDate jsParse s = .ok (some (setHoursJS d (h + 12) m)) := by
    unfold extractDueDate
    simp only [hdm, hjp, htm, hsplit, List.headD_cons, hh, hm, hpm,
      decide_eq_true hlt, Bool.and_self, if_true]
  have hhour : (setHoursJS d (h + 12) m).hour = h + 12 := by
    show ((h + 12) * 60 + m) / 60 % 24 = h + 12
    omega
  have hmin : (setHoursJS d (h + 12) m).minute = m := by
    show ((h + 12) * 60 + m) % 60 = m
    omega
  refine ⟨hdd, hhour, hmin, ?_⟩
  have hpipe : composePipeline fetchResult jsParse fmtLocale createCard
      = .ok (createCard (buildCardInput pe (some (setHoursJS d (h + 12) m))
          (findInstruction s) fmtLocale)) := by
    unfold composePipeline
    rw [hf, exceptOkBind, hp, exceptOkBind, hs]
    rw [show asMatchReceiver (JS.str s) = Except.ok s from rfl]
    rw [exceptOkBind, hdd, exceptOkBind]
  unfold createTrelloCardFromEmail
  rw [hpipe]

/-- A message whose snippet carries the date `1/2/2025` and the time
`2:30pm`. -/
def msgDate : JS :=
  .obj [("id", .str "m3"), ("snippet", .str "1/2/2025 2:30pm"),
    ("payload", .obj [("headers", .arr [])]), ("internalDate", .str "2"),
    ("labelIds", .arr [])]

/-- The normalization of `msgDate`. -/
def peDate : ProcessedEmail :=
  { id := .str "m3", from_ := .str "", subject := .str "",
    snippet := .str "1/2/2025 2:30pm", payload := .obj [("headers", .arr [])],
    internalDate := .str "2", labelIds := .arr [] }

/-- The host date parser restricted to the one date string of the
witness. -/
def jsParseW2 : String → Option JDate :=
  fun t => if t = "1/2/2025" then
    some { year := 2025, month := 1, day := 2, hour := 0, minute := 0 }
  else none

/-- Witness for C4: the snippet `"1/2/2025 2:30pm"` composes a due instant
with hour 14 and minute 30. -/
theorem composer_pm_hour_adjust_witness :
    extractDueDate jsParseW2 "1/2/2025 2:30pm"
      = .ok (some { year := 2025, month := 1, day := 2, hour := 14, minute := 30 })
    ∧ createTrelloCardFromEmail (.ok msgDate) jsParseW2 fmtW createCardW
        = createCardW (buildCardInput peDate
            (some { year := 2025, month := 1, day := 2, hour := 14, minute := 30 })
            (findInstruction "1/2/2025 2:30pm") fmtW) := by
  have hw := composer_pm_hour_adjust (.ok msgDate) jsParseW2 fmtW createCardW
    msgDate peDate "1/2/2025 2:30pm" "1/2/2025" "2:30pm" "2" "30pm" []
    { year := 2025, month := 1, day := 2, hour := 0, minute := 0 } 2 30
    rfl rfl rfl (by decide) (by decide) (by decide) (by decide) (by decide)
    (by decide) (by decide) (by decide) (by decide) (by decide) (by decide)
  have hset : setHoursJS
      { year := 2025, month := 1, day := 2, hour := 0, minute := 0 }
      (2 + 12) 30
      = { year := 2025, month := 1, day := 2, hour := 14, minute := 30 } := by
    decide
  refine ⟨?_, ?_⟩
  · rw [← hset]
    exact hw.1
  · rw [← hset]
    exact hw.2.2.2
